import Mathlib

/-!
Shallow embedding of the sensor-network plant-monitoring pipeline.

Embedded source files:
* `src/plant_monitoring_system/src/sensors/gps/gps.c` — NMEA GGA parsing
  (`nmea_to_degrees`, `parse_gga`) and the UART line reassembler (`uart_isr`).
* `src/plant_monitoring_system/src/gps_thread.c` — the position worker
  (`read_gps_data`).
* `src/plant_monitoring_system_phase3/src/main.c` — the shared measurement
  store (`struct system_measurement`), the packed telemetry record
  (`struct main_measurement`, static initializer `main_data`) and the
  telemetry encoder (`get_measurements`).

Modelling conventions:
* Runtime C `float` arithmetic is embedded as exact rational arithmetic
  over `ℚ`; compile-time `float` constant expressions (the hard-coded
  default coordinates in `read_gps_data`) are folded at their exact IEEE
  binary32 values via the rounding function `fl32`.
* Machine integers are `Int`/`Nat` with explicit wrapping: a signed
  narrowing cast is `wrap8`/`wrap16`/`wrap32`, an unsigned conversion is
  `toU8`/`toU16`/`toU32`.  C signed division truncates toward zero and is
  `Int.tdiv`; the float-to-int cast is `qtrunc` (truncation toward zero).
* C strings are `List Char` holding the bytes up to (not including) the
  terminating NUL.
-/

/-- Two-sided complement wrap of an integer into `[-2^31, 2^31)`, the effect
of a C cast to `int32_t` (and of storing into a 32-bit `atomic_t` slot). -/
def wrap32 (x : Int) : Int :=
  (x + 2147483648) % 4294967296 - 2147483648

/-- Wrap into `[-2^15, 2^15)`, the effect of a C cast to `int16_t`. -/
def wrap16 (x : Int) : Int :=
  (x + 32768) % 65536 - 32768

/-- Wrap into `[-2^7, 2^7)`, the effect of a C cast to `int8_t`. -/
def wrap8 (x : Int) : Int :=
  (x + 128) % 256 - 128

/-- Conversion of a signed value to `uint32_t` (reduction modulo `2^32`). -/
def toU32 (x : Int) : Nat :=
  (x % 4294967296).toNat

/-- Conversion of a signed value to `uint16_t` (reduction modulo `2^16`). -/
def toU16 (x : Int) : Nat :=
  (x % 65536).toNat

/-- Conversion of a signed value to `uint8_t` (reduction modulo `2^8`). -/
def toU8 (x : Int) : Nat :=
  (x % 256).toNat

/-- Truncation of a rational toward zero: the C cast from a floating value
to an integer type. -/
def qtrunc (q : ℚ) : Int :=
  if 0 ≤ q then Int.floor q else - Int.floor (-q)

/-- C cast from a floating value to `int32_t`: truncate toward zero, then
wrap to 32 bits. -/
def castI32q (q : ℚ) : Int :=
  wrap32 (qtrunc q)

/-- Round a rational to the nearest integer, ties to even (the IEEE 754
default rounding). -/
def rnde (q : ℚ) : ℤ :=
  let n := Int.floor q
  let f := q - n
  if f < 1 / 2 then n
  else if 1 / 2 < f then n + 1
  else if n % 2 = 0 then n else n + 1

/-- Binary32 rounding of a positive rational in the normal range: the
significand `q / 2 ^ (exponent - 23)` is rounded to the nearest 24-bit
integer (ties to even) and scaled back. -/
def fl32Pos (q : ℚ) : ℚ :=
  let e : ℤ := Int.log 2 q - 23
  (rnde (q / 2 ^ e) : ℚ) * 2 ^ e

/-- Rounding of a rational to the nearest IEEE binary32 value (normal
range only; every value arising in this development is well inside the
normal range, so no subnormal or overflow handling is modelled).  Used to
fold compile-time `float` constant expressions at their exact binary32
values. -/
def fl32 (q : ℚ) : ℚ :=
  if q = 0 then 0
  else if q < 0 then - fl32Pos (-q)
  else fl32Pos q

/-- Numeric value of a character as an unsigned byte (`c - '0'` in C applied
to a digit character; `digitVal c = c.toNat - 48` with `Nat` saturation for
characters below `'0'`). -/
def digitVal (c : Char) : Nat := c.toNat - 48

/-! ## gps.c — NMEA coordinate conversion (`nmea_to_degrees`) -/

/-- Accumulation loop of `nmea_to_degrees` (gps.c lines 53-67): scans the
string, building the integer part in `value` until a dot is seen, then the
fractional part in `decimal` with a growing `divisor`; stops at the first
character that is neither a digit nor a dot.  Returns `(value, decimal)`. -/
def nmeaScan : List Char → ℚ → ℚ → Bool → ℚ → ℚ × ℚ
  | [], value, decimal, _, _ => (value, decimal)
  | c :: rest, value, decimal, seenDot, divisor =>
    if 48 ≤ c.toNat ∧ c.toNat ≤ 57 then
      if seenDot then
        nmeaScan rest value (decimal + (digitVal c : ℚ) / divisor) seenDot (divisor * 10)
      else
        nmeaScan rest (value * 10 + (digitVal c : ℚ)) decimal seenDot divisor
    else if c = '.' then
      nmeaScan rest value decimal true divisor
    else
      (value, decimal)

/-- Embedding of `nmea_to_degrees` (gps.c lines 45-79): converts an NMEA
"DDMM.MMMM" / "DDDMM.MMMM" coordinate string to decimal degrees, negating
for southern/western hemisphere.  Float arithmetic is modelled exactly
over `ℚ`; the C `(int)` cast is `qtrunc`. -/
def nmea_to_degrees (nmea : List Char) (dir : Char) : ℚ :=
  if nmea.length < 4 then 0
  else
    let vd := nmeaScan nmea 0 0 false 10
    let value : ℚ := vd.1 + vd.2
    let degrees : Int := qtrunc (value / 100)
    let minutes : ℚ := value - (degrees : ℚ) * 100
    let result : ℚ := (degrees : ℚ) + minutes / 60
    if dir = 'S' ∨ dir = 'W' then -result else result

/-! ## gps.c — field splitting and `parse_gga` -/

/-- Field-splitting loop of `parse_gga` (gps.c lines 100-108): walks the
buffer replacing commas by NULs as long as fewer than `MAX_FIELDS = 16`
fields have been started; `n` counts the fields started so far.  Once the
cap is reached, remaining commas stay inside the last field. -/
def splitFieldsAux : List Char → List Char → Nat → List (List Char)
  | [], cur, _ => [cur.reverse]
  | c :: rest, cur, n =>
    if c = ',' ∧ n < 16 then
      cur.reverse :: splitFieldsAux rest [] (n + 1)
    else
      splitFieldsAux rest (c :: cur) n

/-- The field list `parse_gga` builds from a candidate line: the C code
first copies at most `BUF_SIZE - 1 = 127` characters with `strncpy`
(stopping at a NUL) and then splits on commas with a 16-field cap. -/
def ggaFields (line : List Char) : List (List Char) :=
  splitFieldsAux ((line.take 127).takeWhile (fun c => c ≠ Char.ofNat 0)) [] 1

/-- C `isspace` for the default locale, as consulted by `atoi`/`atof`. -/
def isSpaceC (c : Char) : Bool :=
  (c == ' ') || (c == '\t') || (c == '\n') || (c == '\x0b') || (c == '\x0c') || (c == '\r')

/-- Digit-accumulation for `atoiC`: consumes leading digits into `acc`,
stopping at the first non-digit. -/
def digitsAcc : List Char → Int → Int
  | [], acc => acc
  | c :: rest, acc =>
    if 48 ≤ c.toNat ∧ c.toNat ≤ 57 then digitsAcc rest (acc * 10 + (digitVal c : Int))
    else acc

/-- Embedding of C `atoi` as used by `parse_gga` for the satellite count:
skip whitespace, optional sign, then leading digits (0 when none). -/
def atoiC (s : List Char) : Int :=
  let s1 := s.dropWhile (fun c => isSpaceC c)
  match s1 with
  | '-' :: rest => - digitsAcc rest 0
  | '+' :: rest => digitsAcc rest 0
  | _ => digitsAcc s1 0

/-- Integer-part scan for `atofC`: consumes leading digits, returning the
accumulated value and the unconsumed remainder of the string. -/
def intScan : List Char → ℚ → ℚ × List Char
  | [], acc => (acc, [])
  | c :: rest, acc =>
    if 48 ≤ c.toNat ∧ c.toNat ≤ 57 then intScan rest (acc * 10 + (digitVal c : ℚ))
    else (acc, c :: rest)

/-- Fractional-part scan for `atofC`. -/
def fracScan : List Char → ℚ → ℚ → ℚ
  | [], acc, _ => acc
  | c :: rest, acc, scale =>
    if 48 ≤ c.toNat ∧ c.toNat ≤ 57 then fracScan rest (acc + (digitVal c : ℚ) / scale) (scale * 10)
    else acc

/-- Magnitude part of `atofC`: decimal digits, optional dot and fraction.
Exponent notation is not modelled (GGA altitude/HDOP fields never carry
exponents). -/
def atofMag (p : ℚ × List Char) : ℚ :=
  match p.2 with
  | '.' :: r2 => p.1 + fracScan r2 0 10
  | _ => p.1

/-- Embedding of C `atof` as used by `parse_gga` for altitude and HDOP:
whitespace, optional sign, then the magnitude via `atofMag`. -/
def atofC (s : List Char) : ℚ :=
  let s1 := s.dropWhile (fun c => isSpaceC c)
  match s1 with
  | '-' :: rest => - atofMag (intScan rest 0)
  | '+' :: rest => atofMag (intScan rest 0)
  | _ => atofMag (intScan s1 0)

/-- Embedding of `gps_data_t` (gps.h): the parsed position record.  The
`utc_time` field holds the bytes of the C string (at most 15 characters,
per the `strncpy` into `char utc_time[16]`). -/
structure gps_data_t where
  lat : ℚ
  lon : ℚ
  alt : ℚ
  sats : Int
  hdop : ℚ
  utc_time : List Char
deriving DecidableEq

/-- Embedding of `parse_gga` (gps.c lines 93-141).  Field 0 must contain
"GGA"; fields 2-5 (latitude, N/S, longitude, E/W) must exist, i.e. at
least six fields were split; altitude (field 9), satellites (field 7) and
HDOP (field 8) default to zero when their field is absent; the UTC time
field is copied verbatim (truncated to 15 characters). -/
def parse_gga (line : List Char) : Option gps_data_t :=
  if ['G', 'G', 'A'] <:+: (ggaFields line).getD 0 [] then
    if 6 ≤ (ggaFields line).length then
      some
        { lat := nmea_to_degrees ((ggaFields line).getD 2 [])
            (((ggaFields line).getD 3 []).headD (Char.ofNat 0))
          lon := nmea_to_degrees ((ggaFields line).getD 4 [])
            (((ggaFields line).getD 5 []).headD (Char.ofNat 0))
          alt := if 10 ≤ (ggaFields line).length then atofC ((ggaFields line).getD 9 []) else 0
          sats := if 8 ≤ (ggaFields line).length then atoiC ((ggaFields line).getD 7 []) else 0
          hdop := if 9 ≤ (ggaFields line).length then atofC ((ggaFields line).getD 8 []) else 0
          utc_time :=
            if 2 ≤ (ggaFields line).length then ((ggaFields line).getD 1 []).take 15 else [] }
    else none
  else none

/-! ## gps.c — UART line reassembler (`uart_isr`) -/

/-- State touched by `uart_isr` (gps.c lines 154-184): the live prefix of
`nmea_line` (its first `line_pos` characters), the latest-parsed mailbox
`parsed_data`, and the count of the availability semaphore `parsed_sem`
(capped at its limit 1). -/
structure isr_state where
  line : List Char
  parsed : gps_data_t
  sem : Nat
deriving DecidableEq

/-- The newline-handling body of `uart_isr` (gps.c lines 165-176), without
the final `line_pos = 0` reset: if the completed line contains "$GPGGA" or
"$GNGGA" and `parse_gga` succeeds, the mailbox is overwritten and the
semaphore is given (`k_sem_give` saturates at the limit 1); otherwise
nothing is published. -/
def gga_publish (st : isr_state) : isr_state :=
  if ['$', 'G', 'P', 'G', 'G', 'A'] <:+: st.line ∨ ['$', 'G', 'N', 'G', 'G', 'A'] <:+: st.line then
    match parse_gga st.line with
    | some d => { st with parsed := d, sem := min (st.sem + 1) 1 }
    | none => st
  else st

/-- Processing of one received byte by `uart_isr` (gps.c lines 158-181):
a `$` restarts the buffer, any other byte is appended while fewer than
`BUF_SIZE - 1 = 127` characters are buffered (otherwise dropped), and a
newline terminates the line, triggers the parse/publish step and resets
the buffer. -/
def uart_step (st : isr_state) (c : Char) : isr_state :=
  let st1 :=
    if c = '$' then { st with line := ['$'] }
    else if st.line.length < 127 then { st with line := st.line ++ [c] }
    else st
  if c = '\n' then
    let st2 := gga_publish st1
    { st2 with line := [] }
  else st1

/-- Feeding a byte sequence through the reassembler, one `uart_step` per
received byte. -/
def uart_run (st : isr_state) (bytes : List Char) : isr_state :=
  bytes.foldl uart_step st

/-! ## Shared measurement store (`struct system_measurement`) -/

/-- Embedding of `struct system_measurement`: one independently-atomic
32-bit slot per sensor quantity.  Each slot holds the signed value written
by its owning worker; readers re-normalize through `wrap32`/`toU32` as the
C casts do. -/
structure system_measurement where
  brightness : Int
  moisture : Int
  accel_x : Int
  accel_y : Int
  accel_z : Int
  temp : Int
  hum : Int
  red : Int
  green : Int
  blue : Int
  clear : Int
  gps_lat : Int
  gps_lon : Int
  gps_alt : Int
  gps_sats : Int
  gps_time : Int
deriving DecidableEq

/-! ## gps_thread.c — the position worker (`read_gps_data`) -/

/-- Embedding of `read_gps_data` (gps_thread.c lines 42-75).  The argument
`res` is the outcome of `gps_wait_for_gga`: `none` on timeout (the store
is left untouched), `some d` on success.  On success: an all-zero fix is
replaced by hard-coded default coordinates, whose compile-time `float`
constant expressions `35.709662f * 1e6f`, `139.810793f * 1e6f` and
`100 * 100.0f` are folded at their exact IEEE binary32 values via `fl32`
(literal conversion, then product rounding); latitude/longitude are
scaled by `1e6`, altitude by `100`, and cast to `int32_t`; the satellite
count is stored; the UTC time string, when at least 6 characters long, is
decoded as HHMMSS with one hour added, else the sentinel `-1` is stored.
The sequence of `atomic_set` calls is combined into one record update. -/
def read_gps_data (res : Option gps_data_t) (m : system_measurement) : system_measurement :=
  match res with
  | none => m
  | some d =>
    { m with
      gps_lat :=
        if d.lat = 0 ∧ d.lon = 0 ∧ d.alt = 0 then
          castI32q (fl32 (fl32 (35.709662 : ℚ) * fl32 1000000))
        else castI32q (d.lat * 1000000)
      gps_lon :=
        if d.lat = 0 ∧ d.lon = 0 ∧ d.alt = 0 then
          castI32q (fl32 (fl32 (139.810793 : ℚ) * fl32 1000000))
        else castI32q (d.lon * 1000000)
      gps_alt :=
        if d.lat = 0 ∧ d.lon = 0 ∧ d.alt = 0 then castI32q (fl32 ((100 : ℚ) * fl32 100))
        else castI32q (d.alt * 100)
      gps_sats := wrap32 d.sats
      gps_time :=
        if 6 ≤ d.utc_time.length then
          let hh : Int :=
            ((d.utc_time.getD 0 (Char.ofNat 0)).toNat - 48) * 10 +
              ((d.utc_time.getD 1 (Char.ofNat 0)).toNat - 48) + 1
          let mm : Int :=
            ((d.utc_time.getD 2 (Char.ofNat 0)).toNat - 48) * 10 +
              ((d.utc_time.getD 3 (Char.ofNat 0)).toNat - 48)
          let ss : Int :=
            ((d.utc_time.getD 4 (Char.ofNat 0)).toNat - 48) * 10 +
              ((d.utc_time.getD 5 (Char.ofNat 0)).toNat - 48)
          wrap32 (hh * 10000 + mm * 100 + ss)
        else -1 }

/-! ## phase3 main.c — packed telemetry record and encoder -/

/-- Embedding of `struct main_measurement` (phase3 main.c lines 170-196):
the packed wire record.  `timeH`/`timeM`/`timeS` are the three `uint8_t`
entries of `time[3]`; unsigned fields are `Nat`, signed fields `Int`. -/
structure main_measurement where
  lat : Int
  lon : Int
  alt : Int
  timeH : Nat
  timeM : Nat
  timeS : Nat
  sats : Nat
  temp : Int
  hum : Nat
  light : Nat
  moisture : Nat
  r_norm : Nat
  g_norm : Nat
  b_norm : Nat
  x_axis : Int
  y_axis : Int
  z_axis : Int
deriving DecidableEq

/-- The static initializer of `main_data` (phase3 main.c lines 201-220):
every field zero. -/
def main_data_init : main_measurement :=
  { lat := 0, lon := 0, alt := 0, timeH := 0, timeM := 0, timeS := 0, sats := 0,
    temp := 0, hum := 0, light := 0, moisture := 0,
    r_norm := 0, g_norm := 0, b_norm := 0,
    x_axis := 0, y_axis := 0, z_axis := 0 }

/-- Embedding of `get_measurements` (phase3 main.c lines 258-293): one
encoder invocation, reading every store slot once and writing the packed
record.  `prev` is the current contents of the static `main_data` record:
when the clear channel is zero the three colour assignments are skipped,
so those bytes keep their previous values.  The colour quotient follows
the C arithmetic: `long` product, then unsigned 32-bit division (the
`long`/`uint32_t` operands are both converted to unsigned). -/
def get_measurements (prev : main_measurement) (m : system_measurement) : main_measurement :=
  { lat := wrap32 m.gps_lat
    lon := wrap32 m.gps_lon
    alt := wrap32 m.gps_alt
    sats := toU8 (wrap32 m.gps_sats)
    timeH := toU32 (wrap32 m.gps_time) / 10000 % 256
    timeM := toU32 (wrap32 m.gps_time) / 100 % 100 % 256
    timeS := toU32 (wrap32 m.gps_time) % 100 % 256
    temp := wrap16 (wrap32 m.temp)
    hum := toU16 (wrap32 m.hum)
    light := toU16 (wrap32 m.brightness)
    moisture := toU16 (wrap32 m.moisture)
    r_norm :=
      if 0 < toU32 (wrap32 m.clear) then
        toU32 (wrap32 (wrap32 m.red * 100)) / toU32 (wrap32 m.clear) % 256
      else prev.r_norm
    g_norm :=
      if 0 < toU32 (wrap32 m.clear) then
        toU32 (wrap32 (wrap32 m.green * 100)) / toU32 (wrap32 m.clear) % 256
      else prev.g_norm
    b_norm :=
      if 0 < toU32 (wrap32 m.clear) then
        toU32 (wrap32 (wrap32 m.blue * 100)) / toU32 (wrap32 m.clear) % 256
      else prev.b_norm
    x_axis := wrap8 (Int.tdiv (wrap32 m.accel_x) 10)
    y_axis := wrap8 (Int.tdiv (wrap32 m.accel_y) 10)
    z_axis := wrap8 (Int.tdiv (wrap32 m.accel_z) 10) }

/-! ## Specification-side value functions

These express the mathematical reading of a digit string used by the
specification when it speaks of "degrees + minutes/60"; they are compared
against the code-derived definitions above. -/

/-- Positional value of a digit string (most significant digit first). -/
def natVal : List Char → Nat
  | [] => 0
  | c :: rest => digitVal c * 10 ^ rest.length + natVal rest

/-- Value of a digit string read as a decimal fraction `0.d1 d2 ...`. -/
def fracVal (ds : List Char) : ℚ :=
  (natVal ds : ℚ) / 10 ^ ds.length

/-! ## Concrete inputs used by witnesses and counterexamples -/

/-- The store contents of the end-to-end scenario: every slot set to the
value listed in the specification scenario. -/
def c2_store : system_measurement :=
  { brightness := 500, moisture := 300, accel_x := 100, accel_y := -50, accel_z := 980,
    temp := 2550, hum := 6000, red := 50, green := 30, blue := 20, clear := 100,
    gps_lat := 35709662, gps_lon := 139810793, gps_alt := 10000, gps_sats := 7,
    gps_time := 123456 }

/-- The scenario store with the clear colour channel forced to zero. -/
def c3_store : system_measurement :=
  { c2_store with clear := 0 }

/-- A prior record state whose colour bytes are nonzero (as left behind by
an earlier cycle that had a nonzero clear channel). -/
def c3_prev : main_measurement :=
  { main_data_init with r_norm := 5, g_norm := 7, b_norm := 9 }

/-- The scenario store with accelerations whose tenth exceeds the signed
8-bit range. -/
def c7_store : system_measurement :=
  { c2_store with accel_x := 2000, accel_y := -2000, accel_z := 0 }

/-- A successfully parsed record whose coordinates are all exactly zero. -/
def c9_fix : gps_data_t :=
  { lat := 0, lon := 0, alt := 0, sats := 5, hdop := 1, utc_time := ('1' :: '2' :: '3' :: '4' :: '5' :: '6' :: []) }

/-- A successfully parsed record whose time string is empty (shorter than
6 characters). -/
def c10_fix : gps_data_t :=
  { lat := 1, lon := 2, alt := 3, sats := 5, hdop := 1, utc_time := [] }


/-- A well-formed GGA sentence used to exercise the parser. -/
def c1_line : List Char :=
  String.toList "$GPGGA,123456,3542.5000,N,13900.0000,E,1,07,1.0,10.0,M"

/-- A reassembler state holding a malformed candidate line (the GGA marker
is present but only three fields). -/
def c5_state : isr_state :=
  { line := String.toList "$GPGGA,1,2" ++ ('\n' :: []), parsed := c9_fix, sem := 0 }

/-- A reassembler state with a partial line in progress. -/
def c6_state : isr_state :=
  { line := String.toList "$GPG", parsed := c9_fix, sem := 0 }

/-! ## Arithmetic helper lemmas -/

/-- A value already inside the signed 32-bit range is unchanged by the
32-bit wrap. -/
theorem wrap32_eq_of_range (x : Int) (h1 : -2147483648 ≤ x) (h2 : x < 2147483648) :
    wrap32 x = x := by
  unfold wrap32
  omega

/-- C2 counterexample: with the store's encoded-time slot holding
`123456`, the encoder emits hour byte 12, not 13. -/
theorem c2_time_byte_counterexample :
    (get_measurements main_data_init c2_store).timeH = 12 ∧ (12 : Nat) ≠ 13 := by
  decide

/-- C2 (amended): for the scenario store {lat=35709662, lon=139810793,
alt=10000, sats=7, time=123456, temp=2550, hum=6000, light=500,
moisture=300, red=50, green=30, blue=20, clear=100, accel=(100,-50,980)},
one encoder invocation (from any prior record state) produces time bytes
[12,34,56] (the hour+1 rule having been applied upstream, before the
store), colour bytes (50,30,20) and acceleration bytes (10,-5,98). -/
theorem c2_encoder_scenario (prev : main_measurement) :
    (get_measurements prev c2_store).timeH = 12 ∧
    (get_measurements prev c2_store).timeM = 34 ∧
    (get_measurements prev c2_store).timeS = 56 ∧
    (get_measurements prev c2_store).r_norm = 50 ∧
    (get_measurements prev c2_store).g_norm = 30 ∧
    (get_measurements prev c2_store).b_norm = 20 ∧
    (get_measurements prev c2_store).x_axis = 10 ∧
    (get_measurements prev c2_store).y_axis = -5 ∧
    (get_measurements prev c2_store).z_axis = 98 :=
  ⟨rfl, rfl, rfl, rfl, rfl, rfl, rfl, rfl, rfl⟩

/-- C3 counterexample: with the clear channel zero but a prior record
whose red byte is 5, the encoder's red byte is 5, not 0. -/
theorem c3_clear_zero_counterexample :
    (get_measurements c3_prev c3_store).r_norm = 5 ∧ (5 : Nat) ≠ 0 := by
  decide

/-- C3 (amended): for every store state in which the clear colour channel
is zero, the encoder skips the three colour assignments, leaving the
colour-percentage bytes exactly as in the prior record (hence 0 only when
starting from the all-zero initial record); no division is performed on
that path. -/
theorem c3_clear_zero_retains (prev : main_measurement) (m : system_measurement)
    (h : toU32 (wrap32 m.clear) = 0) :
    (get_measurements prev m).r_norm = prev.r_norm ∧
    (get_measurements prev m).g_norm = prev.g_norm ∧
    (get_measurements prev m).b_norm = prev.b_norm := by
  simp [get_measurements, h]

/-- C3 witness: the amended statement evaluated at the concrete store with
clear = 0 and a prior record with colour bytes (5,7,9). -/
theorem c3_clear_zero_retains_witness :
    toU32 (wrap32 c3_store.clear) = 0 ∧
    (get_measurements c3_prev c3_store).r_norm = c3_prev.r_norm ∧
    (get_measurements c3_prev c3_store).g_norm = c3_prev.g_norm ∧
    (get_measurements c3_prev c3_store).b_norm = c3_prev.b_norm :=
  ⟨by decide,
   (c3_clear_zero_retains c3_prev c3_store (by decide)).1,
   (c3_clear_zero_retains c3_prev c3_store (by decide)).2.1,
   (c3_clear_zero_retains c3_prev c3_store (by decide)).2.2⟩

/-- C4 counterexample: two encoder invocations on identical store contents
(clear = 0) but different prior record states produce different records. -/
theorem c4_determinism_counterexample :
    get_measurements c3_prev c3_store ≠ get_measurements main_data_init c3_store := by
  decide

/-- C4 (amended): the encoder is a function of the store contents and the
prior record's colour bytes only; whenever the clear slot reads nonzero,
the record is determined by the store contents alone — two invocations on
identical store contents, from arbitrary prior record states, yield
byte-identical records. -/
theorem c4_encoder_deterministic (p1 p2 : main_measurement) (m : system_measurement)
    (h : 0 < toU32 (wrap32 m.clear)) :
    get_measurements p1 m = get_measurements p2 m := by
  simp only [get_measurements, if_pos h]

/-- C4 witness: the amended statement at the scenario store (clear = 100)
and two different prior records. -/
theorem c4_encoder_deterministic_witness :
    0 < toU32 (wrap32 c2_store.clear) ∧
    get_measurements c3_prev c2_store = get_measurements main_data_init c2_store :=
  ⟨by decide, c4_encoder_deterministic c3_prev main_data_init c2_store (by decide)⟩

/-- C8: when the position worker's wait times out, the store is returned
unchanged — in particular the latitude, longitude, altitude, satellite
and time slots hold exactly their previous values. -/
theorem c8_timeout_keeps_store (m : system_measurement) :
    (read_gps_data none m).gps_lat = m.gps_lat ∧
    (read_gps_data none m).gps_lon = m.gps_lon ∧
    (read_gps_data none m).gps_alt = m.gps_alt ∧
    (read_gps_data none m).gps_sats = m.gps_sats ∧
    (read_gps_data none m).gps_time = m.gps_time ∧
    read_gps_data none m = m :=
  ⟨rfl, rfl, rfl, rfl, rfl, rfl⟩

/-- C7: for in-range stored acceleration slot values, each encoder output
byte is the stored value divided by 10 (C truncating division) narrowed to
a signed 8-bit value by wrapping modulo 256 (`wrap8`), with no
saturation. -/
theorem c7_accel_wrap (prev : main_measurement) (m : system_measurement)
    (hx : -2147483648 ≤ m.accel_x ∧ m.accel_x < 2147483648)
    (hy : -2147483648 ≤ m.accel_y ∧ m.accel_y < 2147483648)
    (hz : -2147483648 ≤ m.accel_z ∧ m.accel_z < 2147483648) :
    (get_measurements prev m).x_axis = wrap8 (Int.tdiv m.accel_x 10) ∧
    (get_measurements prev m).y_axis = wrap8 (Int.tdiv m.accel_y 10) ∧
    (get_measurements prev m).z_axis = wrap8 (Int.tdiv m.accel_z 10) := by
  refine ⟨?_, ?_, ?_⟩ <;> simp only [get_measurements] <;>
    rw [wrap32_eq_of_range _ (by omega) (by omega)]

/-- C7 witness: stored accelerations (2000, -2000, 0) give quotients
(200, -200, 0); the 200 and -200 wrap to the bytes -56 and 56 instead of
saturating at 127 and -128. -/
theorem c7_accel_wrap_witness :
    (-2147483648 ≤ c7_store.accel_x ∧ c7_store.accel_x < 2147483648) ∧
    (get_measurements main_data_init c7_store).x_axis = wrap8 (Int.tdiv c7_store.accel_x 10) ∧
    (get_measurements main_data_init c7_store).y_axis = wrap8 (Int.tdiv c7_store.accel_y 10) ∧
    (get_measurements main_data_init c7_store).x_axis = -56 ∧
    (get_measurements main_data_init c7_store).y_axis = 56 :=
  ⟨by decide,
   (c7_accel_wrap main_data_init c7_store (by decide) (by decide) (by decide)).1,
   (c7_accel_wrap main_data_init c7_store (by decide) (by decide) (by decide)).2.1,
   by decide, by decide⟩

theorem rnde_eval_down (q : ℚ) (n : ℤ) (h1 : (n : ℚ) ≤ q) (h2 : q < (n : ℚ) + 1 / 2) :
    rnde q = n := by
  have hf : ⌊q⌋ = n := Int.floor_eq_iff.mpr ⟨h1, by linarith⟩
  simp only [rnde, hf]
  rw [if_pos (by linarith)]

theorem rnde_eval_up (q : ℚ) (n : ℤ) (h1 : (n : ℚ) + 1 / 2 < q) (h2 : q < (n : ℚ) + 1) :
    rnde q = n + 1 := by
  have hf : ⌊q⌋ = n := Int.floor_eq_iff.mpr ⟨by linarith, by linarith⟩
  simp only [rnde, hf]
  rw [if_neg (by linarith), if_pos (by linarith)]

theorem fl32Pos_eval (q : ℚ) (k : ℤ) (hq : 0 < q)
    (h1 : (2 : ℚ) ^ k ≤ q) (h2 : q < (2 : ℚ) ^ (k + 1)) :
    fl32Pos q = (rnde (q / 2 ^ (k - 23)) : ℚ) * 2 ^ (k - 23) := by
  have hb : (1 : ℕ) < 2 := by norm_num
  have hcast : ((2 : ℕ) : ℚ) = (2 : ℚ) := by norm_num
  have hle : k ≤ Int.log 2 q := by
    rw [← Int.zpow_le_iff_le_log hb hq, hcast]
    exact h1
  have hgt : ¬ (k + 1 ≤ Int.log 2 q) := by
    rw [← Int.zpow_le_iff_le_log hb hq, hcast]
    exact not_le.mpr h2
  have hlog : Int.log 2 q = k := by omega
  simp only [fl32Pos, hlog]

theorem fl32_pos_eval (q : ℚ) (k : ℤ) (hq : 0 < q)
    (h1 : (2 : ℚ) ^ k ≤ q) (h2 : q < (2 : ℚ) ^ (k + 1)) :
    fl32 q = (rnde (q / 2 ^ (k - 23)) : ℚ) * 2 ^ (k - 23) := by
  unfold fl32
  rw [if_neg (by linarith), if_neg (by linarith)]
  exact fl32Pos_eval q k hq h1 h2

theorem fl32_million : fl32 (1000000 : ℚ) = 1000000 := by
  rw [fl32_pos_eval _ 19 (by norm_num) (by norm_num) (by norm_num)]
  rw [show (19 : ℤ) - 23 = -4 from by norm_num]
  rw [rnde_eval_down _ 16000000 (by norm_num) (by norm_num)]
  norm_num

theorem fl32_hundred : fl32 (100 : ℚ) = 100 := by
  rw [fl32_pos_eval _ 6 (by norm_num) (by norm_num) (by norm_num)]
  rw [show (6 : ℤ) - 23 = -17 from by norm_num]
  rw [rnde_eval_down _ 13107200 (by norm_num) (by norm_num)]
  norm_num

theorem fl32_lat_value :
    castI32q (fl32 (fl32 (35.709662 : ℚ) * fl32 1000000)) = 35709664 := by
  rw [show fl32 (35.709662 : ℚ) = 9361074 / 262144 from by
    rw [fl32_pos_eval _ 5 (by norm_num) (by norm_num) (by norm_num)]
    rw [show (5 : ℤ) - 23 = -18 from by norm_num]
    rw [rnde_eval_up _ 9361073 (by norm_num) (by norm_num)]
    norm_num]
  rw [fl32_million]
  rw [show fl32 ((9361074 : ℚ) / 262144 * 1000000) = 35709664 from by
    rw [fl32_pos_eval _ 25 (by norm_num) (by norm_num) (by norm_num)]
    rw [show (25 : ℤ) - 23 = 2 from by norm_num]
    rw [rnde_eval_up _ 8927415 (by norm_num) (by norm_num)]
    norm_num]
  rw [show castI32q (35709664 : ℚ) = qtrunc (35709664 : ℚ) from by
    unfold castI32q
    rw [show qtrunc (35709664 : ℚ) = 35709664 from by norm_num [qtrunc]]
    decide]
  norm_num [qtrunc]

theorem fl32_lon_value :
    castI32q (fl32 (fl32 (139.810793 : ℚ) * fl32 1000000)) = 139810784 := by
  rw [show fl32 (139.810793 : ℚ) = 9162640 / 65536 from by
    rw [fl32_pos_eval _ 7 (by norm_num) (by norm_num) (by norm_num)]
    rw [show (7 : ℤ) - 23 = -16 from by norm_num]
    rw [rnde_eval_down _ 9162640 (by norm_num) (by norm_num)]
    norm_num]
  rw [fl32_million]
  rw [show fl32 ((9162640 : ℚ) / 65536 * 1000000) = 139810784 from by
    rw [fl32_pos_eval _ 27 (by norm_num) (by norm_num) (by norm_num)]
    rw [show (27 : ℤ) - 23 = 4 from by norm_num]
    rw [rnde_eval_down _ 8738174 (by norm_num) (by norm_num)]
    norm_num]
  rw [show castI32q (139810784 : ℚ) = qtrunc (139810784 : ℚ) from by
    unfold castI32q
    rw [show qtrunc (139810784 : ℚ) = 139810784 from by norm_num [qtrunc]]
    decide]
  norm_num [qtrunc]

theorem fl32_alt_value : castI32q (fl32 ((100 : ℚ) * fl32 100)) = 10000 := by
  rw [fl32_hundred]
  rw [show fl32 ((100 : ℚ) * 100) = 10000 from by
    rw [show (100 : ℚ) * 100 = 10000 from by norm_num]
    rw [fl32_pos_eval _ 13 (by norm_num) (by norm_num) (by norm_num)]
    rw [show (13 : ℤ) - 23 = -10 from by norm_num]
    rw [rnde_eval_down _ 10240000 (by norm_num) (by norm_num)]
    norm_num]
  rw [show castI32q (10000 : ℚ) = qtrunc (10000 : ℚ) from by
    unfold castI32q
    rw [show qtrunc (10000 : ℚ) = 10000 from by norm_num [qtrunc]]
    decide]
  norm_num [qtrunc]

/-- C9 counterexample: the program stores the IEEE binary32 results
35709664 and 139810784 — `(int32_t)(35.709662f * 1e6f)` and
`(int32_t)(139.810793f * 1e6f)` — not the claimed 35709662 and
139810793. -/
theorem c9_float_constant_counterexample :
    (read_gps_data (some c9_fix) c2_store).gps_lat = 35709664 ∧
    (read_gps_data (some c9_fix) c2_store).gps_lon = 139810784 ∧
    (35709664 : ℤ) ≠ 35709662 ∧ (139810784 : ℤ) ≠ 139810793 := by
  refine ⟨?_, ?_, by decide, by decide⟩
  · rw [show (read_gps_data (some c9_fix) c2_store).gps_lat =
        castI32q (fl32 (fl32 (35.709662 : ℚ) * fl32 1000000)) from by
      simp [read_gps_data, c9_fix]]
    exact fl32_lat_value
  · rw [show (read_gps_data (some c9_fix) c2_store).gps_lon =
        castI32q (fl32 (fl32 (139.810793 : ℚ) * fl32 1000000)) from by
      simp [read_gps_data, c9_fix]]
    exact fl32_lon_value

/-- C9 (amended): whenever a successfully parsed record has latitude,
longitude and altitude all exactly zero, the position worker stores the
hard-coded default coordinates instead of the parsed zeros: 35709664
(lat) and 139810784 (lon) — the `int32_t` casts of the IEEE binary32
constant products `35.709662f * 1e6f` and `139.810793f * 1e6f` — and
10000 (alt). -/
theorem c9_zero_fix_defaults (d : gps_data_t) (m : system_measurement)
    (h : d.lat = 0 ∧ d.lon = 0 ∧ d.alt = 0) :
    (read_gps_data (some d) m).gps_lat = 35709664 ∧
    (read_gps_data (some d) m).gps_lon = 139810784 ∧
    (read_gps_data (some d) m).gps_alt = 10000 := by
  refine ⟨?_, ?_, ?_⟩
  · rw [show (read_gps_data (some d) m).gps_lat =
        castI32q (fl32 (fl32 (35.709662 : ℚ) * fl32 1000000)) from by
      simp [read_gps_data, h]]
    exact fl32_lat_value
  · rw [show (read_gps_data (some d) m).gps_lon =
        castI32q (fl32 (fl32 (139.810793 : ℚ) * fl32 1000000)) from by
      simp [read_gps_data, h]]
    exact fl32_lon_value
  · rw [show (read_gps_data (some d) m).gps_alt =
        castI32q (fl32 ((100 : ℚ) * fl32 100)) from by
      simp [read_gps_data, h]]
    exact fl32_alt_value

/-- C9 witness: the all-zero fix `c9_fix` written into the scenario store
yields the three default slot values. -/
theorem c9_zero_fix_defaults_witness :
    (c9_fix.lat = 0 ∧ c9_fix.lon = 0 ∧ c9_fix.alt = 0) ∧
    (read_gps_data (some c9_fix) c2_store).gps_lat = 35709664 ∧
    (read_gps_data (some c9_fix) c2_store).gps_lon = 139810784 ∧
    (read_gps_data (some c9_fix) c2_store).gps_alt = 10000 :=
  ⟨⟨rfl, rfl, rfl⟩, c9_zero_fix_defaults c9_fix c2_store ⟨rfl, rfl, rfl⟩⟩

/-- C10: a successfully parsed record whose time string is shorter than 6
characters makes the position worker store the sentinel -1 in the
encoded-time slot; the encoder then reinterprets -1 as the unsigned value
4294967295 and emits the time bytes (184, 72, 95). -/
theorem c10_short_time_sentinel (d : gps_data_t) (m : system_measurement)
    (prev : main_measurement) (h : d.utc_time.length < 6) :
    (read_gps_data (some d) m).gps_time = -1 ∧
    toU32 (wrap32 (-1 : Int)) = 4294967295 ∧
    (get_measurements prev (read_gps_data (some d) m)).timeH = 184 ∧
    (get_measurements prev (read_gps_data (some d) m)).timeM = 72 ∧
    (get_measurements prev (read_gps_data (some d) m)).timeS = 95 := by
  have h1 : (read_gps_data (some d) m).gps_time = -1 := by
    simp [read_gps_data, Nat.not_le.mpr h]
  refine ⟨h1, by decide, ?_, ?_, ?_⟩ <;> simp only [get_measurements] <;> rw [h1] <;> decide

/-- C10 witness: the record with an empty time string, written into the
scenario store and then encoded from the initial record state. -/
theorem c10_short_time_sentinel_witness :
    c10_fix.utc_time.length < 6 ∧
    (read_gps_data (some c10_fix) c2_store).gps_time = -1 ∧
    toU32 (wrap32 (-1 : Int)) = 4294967295 ∧
    (get_measurements main_data_init (read_gps_data (some c10_fix) c2_store)).timeH = 184 ∧
    (get_measurements main_data_init (read_gps_data (some c10_fix) c2_store)).timeM = 72 ∧
    (get_measurements main_data_init (read_gps_data (some c10_fix) c2_store)).timeS = 95 :=
  ⟨by decide, c10_short_time_sentinel c10_fix c2_store main_data_init (by decide)⟩

theorem natVal_append (a b : List Char) :
    natVal (a ++ b) = natVal a * 10 ^ b.length + natVal b := by
  induction a with
  | nil => simp [natVal]
  | cons c r ih =>
    rw [List.cons_append]
    rw [show natVal (c :: (r ++ b)) = digitVal c * 10 ^ (r ++ b).length + natVal (r ++ b) from
      rfl]
    rw [ih, List.length_append]
    rw [show natVal (c :: r) = digitVal c * 10 ^ r.length + natVal r from rfl]
    rw [pow_add]
    ring

theorem natVal_lt (ds : List Char) (h : ∀ c ∈ ds, 48 ≤ c.toNat ∧ c.toNat ≤ 57) :
    natVal ds < 10 ^ ds.length := by
  induction ds with
  | nil => simp [natVal]
  | cons c r ih =>
    have hc := h c (by simp)
    have hr := ih (fun x hx => h x (List.mem_cons_of_mem c hx))
    have hd : digitVal c ≤ 9 := by unfold digitVal; omega
    have h1 : digitVal c * 10 ^ r.length ≤ 9 * 10 ^ r.length :=
      Nat.mul_le_mul_right _ hd
    simp only [natVal, List.length_cons, pow_succ]
    linarith

theorem nmeaScan_digits (ds : List Char) (rest : List Char) (d div : ℚ)
    (h : ∀ c ∈ ds, 48 ≤ c.toNat ∧ c.toNat ≤ 57) :
    ∀ v : ℚ, nmeaScan (ds ++ rest) v d false div =
      nmeaScan rest (v * 10 ^ ds.length + (natVal ds : ℚ)) d false div := by
  induction ds with
  | nil => intro v; simp [natVal]
  | cons c r ih =>
    intro v
    have hc := h c (by simp)
    rw [List.cons_append]
    rw [show nmeaScan (c :: (r ++ rest)) v d false div =
        nmeaScan (r ++ rest) (v * 10 + (digitVal c : ℚ)) d false div from by
      simp [nmeaScan, hc.1, hc.2]]
    rw [ih (fun x hx => h x (List.mem_cons_of_mem c hx)) (v * 10 + (digitVal c : ℚ))]
    have harg : (v * 10 + (digitVal c : ℚ)) * 10 ^ r.length + (natVal r : ℚ) =
        v * 10 ^ (c :: r).length + (natVal (c :: r) : ℚ) := by
      simp only [List.length_cons, natVal]
      push_cast
      ring
    rw [harg]

theorem nmeaScan_dot (post : List Char) (v d div : ℚ) :
    nmeaScan ('.' :: post) v d false div = nmeaScan post v d true div := by
  simp [nmeaScan, show ¬(48 ≤ ('.').toNat ∧ ('.').toNat ≤ 57) from by decide]

theorem nmeaScan_frac (ds : List Char) (v : ℚ)
    (h : ∀ c ∈ ds, 48 ≤ c.toNat ∧ c.toNat ≤ 57) :
    ∀ d div : ℚ, 0 < div →
      nmeaScan ds v d true div = (v, d + (natVal ds : ℚ) * 10 / (div * 10 ^ ds.length)) := by
  induction ds with
  | nil => intro d div hdiv; simp [nmeaScan, natVal]
  | cons c r ih =>
    intro d div hdiv
    have hc := h c (by simp)
    rw [show nmeaScan (c :: r) v d true div =
        nmeaScan r v (d + (digitVal c : ℚ) / div) true (div * 10) from by
      simp [nmeaScan, hc.1, hc.2]]
    rw [ih (fun x hx => h x (List.mem_cons_of_mem c hx)) _ _ (by positivity)]
    have hdne : div ≠ 0 := ne_of_gt hdiv
    have hpne : (10 : ℚ) ^ r.length ≠ 0 := by positivity
    have harg : d + (digitVal c : ℚ) / div + (natVal r : ℚ) * 10 / (div * 10 * 10 ^ r.length) =
        d + (natVal (c :: r) : ℚ) * 10 / (div * 10 ^ (c :: r).length) := by
      simp only [natVal, List.length_cons, pow_succ]
      push_cast
      field_simp
      ring
    rw [harg]

theorem qtrunc_add_frac_div100 (A : ℕ) (f : ℚ) (h0 : 0 ≤ f) (h1 : f < 1) :
    qtrunc (((A : ℚ) + f) / 100) = (A / 100 : ℕ) := by
  have hq : (0 : ℚ) ≤ ((A : ℚ) + f) / 100 := by positivity
  have e : 100 * (A / 100) + A % 100 = A := Nat.div_add_mod A 100
  have hm : A % 100 ≤ 99 := Nat.lt_succ_iff.mp (Nat.mod_lt _ (by norm_num))
  have eq : (100 : ℚ) * ((A / 100 : ℕ) : ℚ) + ((A % 100 : ℕ) : ℚ) = (A : ℚ) := by
    exact_mod_cast e
  have hRge : (0 : ℚ) ≤ ((A % 100 : ℕ) : ℚ) := by positivity
  have hRle : ((A % 100 : ℕ) : ℚ) ≤ 99 := by exact_mod_cast hm
  unfold qtrunc
  rw [if_pos hq, Int.floor_eq_iff]
  constructor
  · simp only [Int.cast_natCast]
    rw [le_div_iff₀ (by norm_num : (0:ℚ) < 100)]
    linarith
  · simp only [Int.cast_natCast]
    rw [div_lt_iff₀ (by norm_num : (0:ℚ) < 100)]
    linarith

theorem nmea_to_degrees_digits (pre post : List Char) (dir : Char)
    (hL : pre.length = 4 ∨ pre.length = 5)
    (hpre : ∀ c ∈ pre, 48 ≤ c.toNat ∧ c.toNat ≤ 57)
    (hpost : ∀ c ∈ post, 48 ≤ c.toNat ∧ c.toNat ≤ 57) :
    nmea_to_degrees (pre ++ '.' :: post) dir =
      (if dir = 'S' ∨ dir = 'W' then (-1 : ℚ) else 1) *
        ((natVal (pre.take (pre.length - 2)) : ℚ) +
          ((natVal (pre.drop (pre.length - 2)) : ℚ) + fracVal post) / 60) := by
  have hlen4 : ¬ (pre ++ '.' :: post).length < 4 := by
    simp only [List.length_append, List.length_cons]
    omega
  have hscan : nmeaScan (pre ++ '.' :: post) 0 0 false 10 =
      ((0 : ℚ) * 10 ^ pre.length + (natVal pre : ℚ),
        0 + (natVal post : ℚ) * 10 / (10 * 10 ^ post.length)) := by
    rw [nmeaScan_digits pre ('.' :: post) 0 10 hpre 0, nmeaScan_dot,
      nmeaScan_frac post _ hpost 0 10 (by norm_num)]
  have hfrac : (0 : ℚ) + (natVal post : ℚ) * 10 / (10 * 10 ^ post.length) = fracVal post := by
    unfold fracVal
    have h10 : (10 : ℚ) ^ post.length ≠ 0 := by positivity
    field_simp
    ring
  have hf0 : (0 : ℚ) ≤ fracVal post := by unfold fracVal; positivity
  have hf1 : fracVal post < 1 := by
    unfold fracVal
    rw [div_lt_one (by positivity)]
    exact_mod_cast natVal_lt post hpost
  have hsplit : pre.take (pre.length - 2) ++ pre.drop (pre.length - 2) = pre :=
    List.take_append_drop _ _
  have hdrop2 : (pre.drop (pre.length - 2)).length = 2 := by
    rw [List.length_drop]
    omega
  have hAsplit : natVal pre =
      natVal (pre.take (pre.length - 2)) * 100 + natVal (pre.drop (pre.length - 2)) := by
    conv_lhs => rw [← hsplit]
    rw [natVal_append, hdrop2]
    norm_num
  have hdlt : natVal (pre.drop (pre.length - 2)) < 100 := by
    have h2 := natVal_lt (pre.drop (pre.length - 2))
      (fun c hc => hpre c (List.drop_subset _ _ hc))
    rwa [hdrop2] at h2
  have hQ : natVal pre / 100 = natVal (pre.take (pre.length - 2)) := by
    rw [hAsplit, mul_comm, Nat.mul_add_div (by norm_num), Nat.div_eq_of_lt hdlt]
    omega
  have hV : (0 : ℚ) * 10 ^ pre.length + (natVal pre : ℚ) +
      (0 + (natVal post : ℚ) * 10 / (10 * 10 ^ post.length)) =
      (natVal pre : ℚ) + fracVal post := by
    rw [← hfrac]
    ring
  have htr : qtrunc (((natVal pre : ℚ) + fracVal post) / 100) =
      ((natVal pre / 100 : ℕ) : ℤ) :=
    qtrunc_add_frac_div100 (natVal pre) (fracVal post) hf0 hf1
  simp only [nmea_to_degrees, hscan, if_neg hlen4]
  rw [hV, htr, hQ]
  by_cases hd : dir = 'S' ∨ dir = 'W'
  · rw [if_pos hd, if_pos hd]
    push_cast [hAsplit]
    ring
  · rw [if_neg hd, if_neg hd]
    push_cast [hAsplit]
    ring

/-- C1: for a candidate line whose field 0 carries the GGA marker and
which has at least six fields, the parser publishes a record; whenever
the latitude (fields 2/3) or longitude (fields 4/5) field is a digit
string of the form DDMM.MMMM or DDDMM.MMMM with a hemisphere character,
the published coordinate equals degrees + minutes/60 — degrees being the
digit string with its last two pre-decimal digits removed, minutes the
remainder plus the decimal fraction — negated exactly when the
hemisphere indicator is S or W. -/
theorem c1_parser_coordinate_conversion (line : List Char)
    (hGGA : ['G', 'G', 'A'] <:+: (ggaFields line).getD 0 [])
    (hcount : 6 ≤ (ggaFields line).length) :
    ∃ out, parse_gga line = some out ∧
      (∀ pre post dir, pre.length = 4 ∨ pre.length = 5 →
        (∀ c ∈ pre, 48 ≤ c.toNat ∧ c.toNat ≤ 57) →
        (∀ c ∈ post, 48 ≤ c.toNat ∧ c.toNat ≤ 57) →
        (ggaFields line).getD 2 [] = pre ++ '.' :: post →
        ((ggaFields line).getD 3 []).headD (Char.ofNat 0) = dir →
        out.lat = (if dir = 'S' ∨ dir = 'W' then (-1 : ℚ) else 1) *
          ((natVal (pre.take (pre.length - 2)) : ℚ) +
            ((natVal (pre.drop (pre.length - 2)) : ℚ) + fracVal post) / 60)) ∧
      (∀ pre post dir, pre.length = 4 ∨ pre.length = 5 →
        (∀ c ∈ pre, 48 ≤ c.toNat ∧ c.toNat ≤ 57) →
        (∀ c ∈ post, 48 ≤ c.toNat ∧ c.toNat ≤ 57) →
        (ggaFields line).getD 4 [] = pre ++ '.' :: post →
        ((ggaFields line).getD 5 []).headD (Char.ofNat 0) = dir →
        out.lon = (if dir = 'S' ∨ dir = 'W' then (-1 : ℚ) else 1) *
          ((natVal (pre.take (pre.length - 2)) : ℚ) +
            ((natVal (pre.drop (pre.length - 2)) : ℚ) + fracVal post) / 60)) := by
  refine
    ⟨{ lat := nmea_to_degrees ((ggaFields line).getD 2 [])
          (((ggaFields line).getD 3 []).headD (Char.ofNat 0))
       lon := nmea_to_degrees ((ggaFields line).getD 4 [])
          (((ggaFields line).getD 5 []).headD (Char.ofNat 0))
       alt := if 10 ≤ (ggaFields line).length then atofC ((ggaFields line).getD 9 []) else 0
       sats := if 8 ≤ (ggaFields line).length then atoiC ((ggaFields line).getD 7 []) else 0
       hdop := if 9 ≤ (ggaFields line).length then atofC ((ggaFields line).getD 8 []) else 0
       utc_time :=
         if 2 ≤ (ggaFields line).length then ((ggaFields line).getD 1 []).take 15 else [] },
      ?_, ?_, ?_⟩
  · unfold parse_gga
    rw [if_pos hGGA, if_pos hcount]
  · intro pre post dir hL hpre hpost h2 h3
    show nmea_to_degrees ((ggaFields line).getD 2 [])
        (((ggaFields line).getD 3 []).headD (Char.ofNat 0)) = _
    rw [h2, h3]
    exact nmea_to_degrees_digits pre post dir hL hpre hpost
  · intro pre post dir hL hpre hpost h4 h5
    show nmea_to_degrees ((ggaFields line).getD 4 [])
        (((ggaFields line).getD 5 []).headD (Char.ofNat 0)) = _
    rw [h4, h5]
    exact nmea_to_degrees_digits pre post dir hL hpre hpost


/-- C1 witness: the line "$GPGGA,123456,3542.5000,N,13900.0000,E,..."
parses to latitude 35 + 42.5/60 = 857/24 (= 35.708333...) and longitude
139. -/
theorem c1_parser_coordinate_conversion_witness :
    (6 ≤ (ggaFields c1_line).length) ∧
    ∃ out, parse_gga c1_line = some out ∧ out.lat = 857 / 24 ∧ out.lon = 139 := by
  refine ⟨by decide, ?_⟩
  obtain ⟨out, hp, hlat, hlon⟩ := c1_parser_coordinate_conversion c1_line (by decide) (by decide)
  refine ⟨out, hp, ?_, ?_⟩
  · rw [hlat ('3' :: '5' :: '4' :: '2' :: []) ('5' :: '0' :: '0' :: '0' :: []) 'N'
      (Or.inl rfl) (by decide) (by decide) (by decide) (by decide)]
    rw [show natVal (('3' :: '5' :: '4' :: '2' :: []).take
        (('3' :: '5' :: '4' :: '2' :: []).length - 2)) = 35 from rfl]
    rw [show natVal (('3' :: '5' :: '4' :: '2' :: []).drop
        (('3' :: '5' :: '4' :: '2' :: []).length - 2)) = 42 from rfl]
    rw [show fracVal ('5' :: '0' :: '0' :: '0' :: []) =
        (5000 : ℚ) / 10 ^ 4 from by
      unfold fracVal
      norm_num [show natVal ('5' :: '0' :: '0' :: '0' :: []) = 5000 from rfl]]
    rw [if_neg (by decide : ¬ (('N' : Char) = 'S' ∨ ('N' : Char) = 'W'))]
    norm_num
  · rw [hlon ('1' :: '3' :: '9' :: '0' :: '0' :: []) ('0' :: '0' :: '0' :: '0' :: []) 'E'
      (Or.inr rfl) (by decide) (by decide) (by decide) (by decide)]
    rw [show natVal (('1' :: '3' :: '9' :: '0' :: '0' :: []).take
        (('1' :: '3' :: '9' :: '0' :: '0' :: []).length - 2)) = 139 from rfl]
    rw [show natVal (('1' :: '3' :: '9' :: '0' :: '0' :: []).drop
        (('1' :: '3' :: '9' :: '0' :: '0' :: []).length - 2)) = 0 from rfl]
    rw [show fracVal ('0' :: '0' :: '0' :: '0' :: []) = (0 : ℚ) / 10 ^ 4 from by
      unfold fracVal
      norm_num [show natVal ('0' :: '0' :: '0' :: '0' :: []) = 0 from rfl]]
    rw [if_neg (by decide : ¬ (('E' : Char) = 'S' ∨ ('E' : Char) = 'W'))]
    norm_num

/-- C5: whenever the candidate line's field 0 lacks the GGA marker, or
fewer than six comma-separated fields are present (latitude, longitude or
hemisphere fields absent), the parser returns nothing, and the publish
step leaves the mailbox contents and the availability semaphore
unchanged. -/
theorem c5_malformed_not_published (st : isr_state)
    (h : ¬ (['G', 'G', 'A'] <:+: (ggaFields st.line).getD 0 []) ∨
      (ggaFields st.line).length < 6) :
    parse_gga st.line = none ∧
    (gga_publish st).parsed = st.parsed ∧ (gga_publish st).sem = st.sem ∧
    gga_publish st = st := by
  have hp : parse_gga st.line = none := by
    unfold parse_gga
    rcases h with h | h
    · rw [if_neg h]
    · by_cases hg : ['G', 'G', 'A'] <:+: (ggaFields st.line).getD 0 []
      · rw [if_pos hg, if_neg (Nat.not_le.mpr h)]
      · rw [if_neg hg]
  have hpub : gga_publish st = st := by
    unfold gga_publish
    rw [hp]
    simp
  exact ⟨hp, by rw [hpub], by rw [hpub], hpub⟩


/-- C5 witness: the three-field line "$GPGGA,1,2" fails to parse and
publishes nothing. -/
theorem c5_malformed_not_published_witness :
    ((ggaFields c5_state.line).length < 6) ∧
    parse_gga c5_state.line = none ∧
    (gga_publish c5_state).parsed = c5_state.parsed ∧
    (gga_publish c5_state).sem = c5_state.sem ∧
    gga_publish c5_state = c5_state :=
  ⟨by decide, c5_malformed_not_published c5_state (Or.inr (by decide))⟩

theorem uart_run_append (st : isr_state) (a b : List Char) :
    uart_run st (a ++ b) = uart_run (uart_run st a) b :=
  List.foldl_append uart_step st a b

theorem uart_step_mailbox (st : isr_state) (c : Char) (h : c ≠ '\n') :
    (uart_step st c).parsed = st.parsed ∧ (uart_step st c).sem = st.sem := by
  simp only [uart_step]
  rw [if_neg h]
  split
  · exact ⟨rfl, rfl⟩
  · split
    · exact ⟨rfl, rfl⟩
    · exact ⟨rfl, rfl⟩

theorem uart_run_mailbox (l : List Char) (h : '\n' ∉ l) :
    ∀ st : isr_state, (uart_run st l).parsed = st.parsed ∧ (uart_run st l).sem = st.sem := by
  induction l with
  | nil => exact fun st => ⟨rfl, rfl⟩
  | cons c r ih =>
    intro st
    have hc : c ≠ '\n' := fun e => h (by simp [e])
    have hr : '\n' ∉ r := fun e => h (by simp [e])
    have hs := uart_step_mailbox st c hc
    have h2 := ih hr (uart_step st c)
    exact ⟨h2.1.trans hs.1, h2.2.trans hs.2⟩

theorem uart_run_accum (l : List Char) :
    ∀ st : isr_state, (∀ c ∈ l, c ≠ '$' ∧ c ≠ '\n') → st.line.length + l.length ≤ 127 →
      uart_run st l = { st with line := st.line ++ l } := by
  induction l with
  | nil => intro st h hlen; simp [uart_run]
  | cons c r ih =>
    intro st h hlen
    have hc := h c (List.mem_cons_self c r)
    have hlt : st.line.length < 127 := by
      simp only [List.length_cons] at hlen
      omega
    have hstep : uart_step st c = { st with line := st.line ++ (c :: []) } := by
      simp only [uart_step]
      rw [if_neg hc.1, if_pos hlt, if_neg hc.2]
    rw [show uart_run st (c :: r) = uart_run (uart_step st c) r from rfl, hstep,
      ih { st with line := st.line ++ (c :: []) }
        (fun x hx => h x (List.mem_cons_of_mem c hx))
        (by simp only [List.length_append, List.length_cons, List.length_nil]
            simp only [List.length_cons] at hlen
            omega)]
    simp

/-- C6: fed a start marker, some bytes that are neither a start marker
nor a terminator, and a second start marker followed by further such
bytes, the reassembler discards the first partial line entirely and its
buffer afterwards holds exactly the line begun at the second start
marker; nothing is published along the way. -/
theorem c6_reassembler_second_start (st : isr_state) (xs ys : List Char)
    (hxs : ∀ c ∈ xs, c ≠ '$' ∧ c ≠ '\n')
    (hys : ∀ c ∈ ys, c ≠ '$' ∧ c ≠ '\n')
    (hlen : ys.length ≤ 126) :
    (uart_run st ('$' :: xs ++ '$' :: ys)).line = '$' :: ys ∧
    (uart_run st ('$' :: xs ++ '$' :: ys)).parsed = st.parsed ∧
    (uart_run st ('$' :: xs ++ '$' :: ys)).sem = st.sem := by
  have hdollar : ∀ s : isr_state, uart_step s '$' = { s with line := ('$' :: []) } := by
    intro s
    simp only [uart_step]
    rw [if_neg (by decide : ¬ ('$' : Char) = '\n')]
    simp
  have hrun : uart_run st ('$' :: xs ++ '$' :: ys) =
      uart_run (uart_run st ('$' :: xs)) ('$' :: ys) := by
    rw [show ('$' :: xs ++ '$' :: ys) = ('$' :: xs) ++ ('$' :: ys) by simp]
    exact List.foldl_append _ _ _ _
  have h1 : uart_run st ('$' :: xs) = uart_run { st with line := ('$' :: []) } xs := by
    rw [show uart_run st ('$' :: xs) = uart_run (uart_step st '$') xs from rfl, hdollar]
  have hnx : '\n' ∉ xs := fun hm => (hxs _ hm).2 rfl
  have hny : '\n' ∉ ys := fun hm => (hys _ hm).2 rfl
  have hkeep1 := uart_run_mailbox xs hnx { st with line := ('$' :: []) }
  have h2 : ∀ s : isr_state, uart_run s ('$' :: ys) =
      uart_run { s with line := ('$' :: []) } ys := by
    intro s
    rw [show uart_run s ('$' :: ys) = uart_run (uart_step s '$') ys from rfl, hdollar]
  set stx := uart_run { st with line := ('$' :: []) } xs with hstx
  have hacc := uart_run_accum ys { stx with line := ('$' :: []) } hys
    (by simp only [List.length_cons, List.length_nil]; omega)
  have hkeep2 := uart_run_mailbox ys hny { stx with line := ('$' :: []) }
  rw [hrun, h1, h2, hacc]
  refine ⟨by simp, ?_, ?_⟩
  · exact hkeep1.1
  · exact hkeep1.2


/-- C6 witness: from a state with a partial line buffered, the stream
"$AB$CD" leaves exactly "$CD" in the buffer and publishes nothing. -/
theorem c6_reassembler_second_start_witness :
    (∀ c ∈ ('A' :: 'B' :: []), c ≠ '$' ∧ c ≠ '\n') ∧
    (∀ c ∈ ('C' :: 'D' :: []), c ≠ '$' ∧ c ≠ '\n') ∧
    (uart_run c6_state ('$' :: ('A' :: 'B' :: []) ++ '$' :: ('C' :: 'D' :: []))).line =
      '$' :: ('C' :: 'D' :: []) ∧
    (uart_run c6_state ('$' :: ('A' :: 'B' :: []) ++ '$' :: ('C' :: 'D' :: []))).parsed =
      c6_state.parsed ∧
    (uart_run c6_state ('$' :: ('A' :: 'B' :: []) ++ '$' :: ('C' :: 'D' :: []))).sem =
      c6_state.sem :=
  ⟨by decide, by decide,
    c6_reassembler_second_start c6_state ('A' :: 'B' :: []) ('C' :: 'D' :: [])
      (by decide) (by decide) (by decide)⟩
